import Mathlib

/-!
Shallow embedding of the SOCKS5 proxy server (Go sources: the UDP handler,
the connection coordinator `server.go`, and the configuration structure).

Byte streams are modeled as `List Nat` (each element a byte value); Go strings
built from wire bytes (`string(username)`, `string(domain)`) are kept as their
underlying byte lists, since the Go conversion is a byte-wise bijection.
`io.ReadFull` of `k` bytes from a stream succeeds exactly when at least `k`
bytes remain, consuming them; a short read is an error (`readFull`).
Network effects (resolving, dialing, the relay) are modeled by explicit
oracle parameters returning `Option` results.
-/

namespace Socks5

/-- Model of `io.ReadFull(conn, buf)` for a buffer of `k` bytes over the
remaining input stream: succeeds iff `k` bytes are available, returning the
bytes read and the rest of the stream. -/
def readFull (k : Nat) (input : List Nat) : Option (List Nat × List Nat) :=
  if k ≤ input.length then some (input.take k, input.drop k) else none

/-- Model of `binary.BigEndian.Uint16` applied to a 2-byte slice. -/
def uint16BE (s : List Nat) : Nat :=
  s.getD 0 0 * 256 + s.getD 1 0

/-- Observable outcome of running one phase of a connection: the bytes the
server wrote to the client, whether the phase succeeded (`ok = false` means
the handler returned an error, after which `handleConnection` closes the
connection), and the part of the input stream not consumed (so that the
absence of further reads is visible). On a failed `readFull` the remainder
is `[]` (the stream was exhausted mid-read). -/
structure ConnTrace where
  written : List Nat
  ok : Bool
  remaining : List Nat
deriving Repr, DecidableEq

/-- The credential store `map[string]string` of `Config.Users`, as an
association list from username bytes to password bytes (Go map keys are
unique; lookup is exact string match). -/
abbrev Credentials := List (List Nat × List Nat)

/-- `Server.verifyCredentials`: look the username up in the store and compare
the stored password with the supplied one by exact equality. -/
def verifyCredentials (credentials : Credentials) (username password : List Nat) : Bool :=
  match credentials.lookup username with
  | some storedPass => storedPass == password
  | none => false

/-- The fields of `Server` relevant to authentication. -/
structure Server where
  credentials : Credentials
  authEnabled : Bool
deriving Repr, DecidableEq

/-- `NewServer`: `authEnabled` is set iff `len(config.Users) > 0`. -/
def NewServer (users : Credentials) : Server :=
  ⟨users, decide (0 < users.length)⟩

/-- The method-selection loop of `Server.handleHandshake`: with a non-empty
credential store only `0x02` (user/pass) is accepted, otherwise only `0x00`
(no auth); if the sought method is absent the result stays `0xFF`.
The Go `for`/`break` loop scanning for one fixed byte is exactly a
membership test. -/
def selectMethod (authEnabled : Bool) (methods : List Nat) : Nat :=
  if authEnabled then
    if methods.contains 2 then 2 else 255
  else
    if methods.contains 0 then 0 else 255

/-- `Server.handleUserPassAuth`: read `[version, ulen]`, reject version ≠ 1,
read the username, read `[plen]`, read the password, verify, and write the
status frame `[0x01, status]`; on failure the handler returns an error (the
connection is then closed). -/
def handleUserPassAuth (credentials : Credentials) (input : List Nat) : ConnTrace :=
  match readFull 2 input with
  | none => ⟨[], false, []⟩
  | some (header, rest) =>
    if header.getD 0 0 ≠ 1 then ⟨[], false, rest⟩
    else
      match readFull (header.getD 1 0) rest with
      | none => ⟨[], false, []⟩
      | some (username, rest1) =>
        match readFull 1 rest1 with
        | none => ⟨[], false, []⟩
        | some (passLenBuf, rest2) =>
          match readFull (passLenBuf.getD 0 0) rest2 with
          | none => ⟨[], false, []⟩
          | some (password, rest3) =>
            if verifyCredentials credentials username password then
              ⟨[1, 0], true, rest3⟩
            else
              ⟨[1, 1], false, rest3⟩

/-- `Server.handleHandshake`: read `[version, nmethods]`, reject version ≠ 5,
read the `nmethods` method bytes, select a method, write `[0x05, method]`;
`0xFF` is an error (connection closed, nothing further read), `0x02`
continues into `handleUserPassAuth`, `0x00` succeeds. -/
def handleHandshake (s : Server) (input : List Nat) : ConnTrace :=
  match readFull 2 input with
  | none => ⟨[], false, []⟩
  | some (header, rest) =>
    if header.getD 0 0 ≠ 5 then ⟨[], false, rest⟩
    else
      match readFull (header.getD 1 0) rest with
      | none => ⟨[], false, []⟩
      | some (methods, rest1) =>
        let method := selectMethod s.authEnabled methods
        if method = 255 then ⟨[5, 255], false, rest1⟩
        else if method = 2 then
          let a := handleUserPassAuth s.credentials rest1
          ⟨[5, 2] ++ a.written, a.ok, a.remaining⟩
        else ⟨[5, 0], true, rest1⟩

/-- `UDPHandler.handleTargetData`, per datagram read from the target: the
code reads the payload into `buffer[4:]`, overwrites `buffer[0:4]` with
`{0, 0, 0, 0x01}` and sends `buffer[:n+4]` to the client. The frame sent is
therefore the fixed 4-byte header followed directly by the payload. -/
def handleTargetFrame (payload : List Nat) : List Nat :=
  [0, 0, 0, 1] ++ payload

/-- Reading exactly the length of a prefix consumes that prefix and leaves
the rest of the stream. -/
theorem readFull_exact (l₁ l₂ : List Nat) : readFull l₁.length (l₁ ++ l₂) = some (l₁, l₂) := by
  simp [readFull]

/-- Claim C1: the datagram sent back to the client is claimed to be the
4-byte header `0x00 0x00 0x00 0x01` followed by the source's 4-byte IPv4
address and 2-byte port and then the payload. The code, however, sends the
4-byte header followed immediately by the payload: for a 1-byte payload
`0xAB` the frame is `[0, 0, 0, 1, 0xAB]`, 5 bytes, whereas any frame of the
claimed shape with a 1-byte payload has 4 + 4 + 2 + 1 = 11 bytes. The code
tags the frame ATYP = IPv4 (byte 3 = 0x01) yet omits the address and port
that its own datagram-format comment (RSV | FRAG | ATYP | ADDR | PORT |
DATA) and RFC 1928 require after that tag. -/
theorem c1_target_reply_missing_source_addr :
    handleTargetFrame [171] = [0, 0, 0, 1, 171] ∧
    (handleTargetFrame [171]).length = 5 ∧ (handleTargetFrame [171]).length ≠ 4 + 4 + 2 + 1 := by
  refine ⟨rfl, rfl, by decide⟩

/-- Claim C2: for every handshake (version 5, any method list of at most 255
methods): with a non-empty credential store the selected method is `0x02`
when offered and `0xFF` otherwise; with an empty store it is `0x00` when
offered and `0xFF` otherwise; and after the server sends `0xFF` the
handshake fails (the connection is closed) with the bytes after the method
list left unread. -/
theorem c2_handshake_method_selection (users : Credentials) (methods rest : List Nat)
    (hm : methods.length ≤ 255) :
    ((NewServer users).credentials ≠ [] →
      (handleHandshake (NewServer users) (5 :: methods.length :: (methods ++ rest))).written.take 2
        = [5, if methods.contains 2 then 2 else 255]) ∧
    ((NewServer users).credentials = [] →
      (handleHandshake (NewServer users) (5 :: methods.length :: (methods ++ rest))).written.take 2
        = [5, if methods.contains 0 then 0 else 255]) ∧
    (selectMethod (NewServer users).authEnabled methods = 255 →
      handleHandshake (NewServer users) (5 :: methods.length :: (methods ++ rest))
        = ⟨[5, 255], false, rest⟩) := by
  have h2 : readFull 2 (5 :: methods.length :: (methods ++ rest))
      = some ([5, methods.length], methods ++ rest) :=
    readFull_exact [5, methods.length] (methods ++ rest)
  have hh : handleHandshake (NewServer users) (5 :: methods.length :: (methods ++ rest))
      = (if selectMethod (NewServer users).authEnabled methods = 255 then ⟨[5, 255], false, rest⟩
         else if selectMethod (NewServer users).authEnabled methods = 2 then
           ⟨[5, 2] ++ (handleUserPassAuth (NewServer users).credentials rest).written,
            (handleUserPassAuth (NewServer users).credentials rest).ok,
            (handleUserPassAuth (NewServer users).credentials rest).remaining⟩
         else ⟨[5, 0], true, rest⟩) := by
    simp [handleHandshake, h2, readFull_exact methods rest]
  refine ⟨fun hne => ?_, fun hemp => ?_, fun h255 => ?_⟩
  · have ha : (NewServer users).authEnabled = true := by
      simp [NewServer, List.length_pos]
      exact hne
    rw [hh, ha]
    by_cases hc : 2 ∈ methods <;> simp [selectMethod, ha, hc]
  · have ha : (NewServer users).authEnabled = false := by
      simp [NewServer]
      simp [NewServer] at hemp
      simp [hemp]
    rw [hh, ha]
    by_cases hc : 0 ∈ methods <;> simp [selectMethod, ha, hc]
  · rw [hh, h255]
    simp

/-- Claim C3: for every well-formed username/password sub-negotiation frame
(version 1, length-prefixed fields of at most 255 bytes), the server replies
status `0x00` and proceeds exactly when the username is a key of the
credential store whose stored password equals the supplied password; in
every other case it replies status `0x01` and the handler fails, closing the
connection without reading past the frame. -/
theorem c3_userpass_verification (credentials : Credentials) (user pass rest : List Nat)
    (hu : user.length ≤ 255) (hp : pass.length ≤ 255) :
    (handleUserPassAuth credentials (1 :: user.length :: (user ++ pass.length :: (pass ++ rest)))
      = if verifyCredentials credentials user pass then ⟨[1, 0], true, rest⟩
        else ⟨[1, 1], false, rest⟩) ∧
    (verifyCredentials credentials user pass = true ↔ credentials.lookup user = some pass) := by
  constructor
  · have h2 : readFull 2 (1 :: user.length :: (user ++ pass.length :: (pass ++ rest)))
        = some ([1, user.length], user ++ pass.length :: (pass ++ rest)) :=
      readFull_exact [1, user.length] (user ++ pass.length :: (pass ++ rest))
    have hu2 : readFull user.length (user ++ pass.length :: (pass ++ rest))
        = some (user, pass.length :: (pass ++ rest)) :=
      readFull_exact user (pass.length :: (pass ++ rest))
    have hp1 : readFull 1 (pass.length :: (pass ++ rest))
        = some ([pass.length], pass ++ rest) :=
      readFull_exact [pass.length] (pass ++ rest)
    have hp2 : readFull pass.length (pass ++ rest) = some (pass, rest) :=
      readFull_exact pass rest
    simp [handleUserPassAuth, h2, hu2, hp1, hp2]
  · unfold verifyCredentials
    cases hlk : credentials.lookup user with
    | none => simp
    | some stored => simp [beq_iff_eq]

/-- Concrete instantiation of the handshake theorem: one configured user with
methods `{0x00, 0x02}` selects `0x02`; an empty store with `{0x00}` selects
`0x00`; one configured user offered only `0x01` (GSSAPI) yields `0xFF`,
a failed handshake, and no bytes read past the method list. -/
theorem c2_handshake_method_selection_witness :
    (handleHandshake (NewServer [([7], [9])]) [5, 2, 0, 2]).written.take 2 = [5, 2] ∧
    (handleHandshake (NewServer []) [5, 1, 0]).written.take 2 = [5, 0] ∧
    handleHandshake (NewServer [([7], [9])]) [5, 1, 1] = ⟨[5, 255], false, []⟩ := by
  refine ⟨?_, ?_, ?_⟩
  · have h := (c2_handshake_method_selection [([7], [9])] [0, 2] [] (by decide)).1 (by decide)
    simpa using h
  · have h := (c2_handshake_method_selection [] [0] [] (by decide)).2.1 (by decide)
    simpa using h
  · exact (c2_handshake_method_selection [([7], [9])] [1] [] (by decide)).2.2 (by decide)

/-- Concrete instantiation of the sub-negotiation theorem: for the store
mapping username `[7]` to password `[9]`, correct credentials yield status
`0x00` and success; a wrong password yields status `0x01` and failure. -/
theorem c3_userpass_verification_witness :
    handleUserPassAuth [([7], [9])] [1, 1, 7, 1, 9] = ⟨[1, 0], true, []⟩ ∧
    handleUserPassAuth [([7], [9])] [1, 1, 7, 1, 8] = ⟨[1, 1], false, []⟩ := by
  constructor
  · have h := (c3_userpass_verification [([7], [9])] [7] [9] [] (by decide) (by decide)).1
    simpa [verifyCredentials] using h
  · have h := (c3_userpass_verification [([7], [9])] [7] [8] [] (by decide) (by decide)).1
    simpa [verifyCredentials] using h

/-! The SOCKS5 destination address data model and its decoders. -/

/-- Destination Address: a tagged union of an IPv4 address (4 bytes), a
domain name (length-prefixed, at most 255 bytes) or an IPv6 address
(16 bytes). The address bytes are kept raw; the Go code formats IPs with
`net.IP.String` and converts domains with `string(...)`, both injective on
well-formed values of a fixed family. -/
inductive DestAddr where
  | ipv4 (addr : List Nat)
  | domain (name : List Nat)
  | ipv6 (addr : List Nat)
deriving Repr, DecidableEq

/-- Well-formedness of a destination address value: the fixed sizes of the
IP families and the one-byte length bound of a domain. -/
def DestAddr.wf : DestAddr → Prop
  | .ipv4 a => a.length = 4
  | .domain d => d.length ≤ 255
  | .ipv6 a => a.length = 16

/-- Number of wire bytes after the ATYP tag: the address bytes (with the
length prefix for domains) plus the 2-byte port. -/
def DestAddr.wireSize : DestAddr → Nat
  | .ipv4 _ => 4 + 2
  | .domain d => 1 + d.length + 2
  | .ipv6 _ => 16 + 2

/-- The SOCKS5 wire encoding of a destination address and port, as parsed by
the decoders below: the ATYP tag, the address bytes (length-prefixed for a
domain), then the port big-endian. -/
def encodeDest : DestAddr → Nat → List Nat
  | .ipv4 a, p => 1 :: (a ++ [p / 256, p % 256])
  | .domain d, p => 3 :: d.length :: (d ++ [p / 256, p % 256])
  | .ipv6 a, p => 4 :: (a ++ [p / 256, p % 256])

/-- The header decode of `UDPHandler.handleUDP` over the received datagram
`buffer` (exactly the `n` received bytes): datagrams shorter than 4 bytes
are dropped, the ATYP tag at index 3 selects the branch, every branch first
checks `n` against the bytes it needs (for a domain, the declared length
byte at index 4 plus the 2-byte port) and drops the datagram otherwise, and
on success yields the destination, the port, and `headerSize`, the number
of bytes consumed as determined by the tag and the fixed or length-prefixed
size. -/
def decodeUDPHeader (buffer : List Nat) : Option (DestAddr × Nat × Nat) :=
  let n := buffer.length
  if n < 4 then none
  else
    let atyp := buffer.getD 3 0
    if atyp = 1 then
      if n < 4 + 4 + 2 then none
      else some (.ipv4 ((buffer.drop 4).take 4),
                 uint16BE ((buffer.drop (4 + 4)).take 2), 4 + 6)
    else if atyp = 3 then
      if n < 4 + 1 then none
      else
        let domainLen := buffer.getD 4 0
        if n < 4 + 1 + domainLen + 2 then none
        else some (.domain ((buffer.drop (4 + 1)).take domainLen),
                   uint16BE ((buffer.drop (4 + 1 + domainLen)).take 2), 4 + (1 + domainLen + 2))
    else if atyp = 4 then
      if n < 4 + 16 + 2 then none
      else some (.ipv6 ((buffer.drop 4).take 16),
                 uint16BE ((buffer.drop (4 + 16)).take 2), 4 + 18)
    else none

/-- `Server.readIPv4`: read exactly 4 address bytes from the stream. -/
def readIPv4 : List Nat → Option (List Nat × List Nat) := readFull 4

/-- `Server.readIPv6`: read exactly 16 address bytes from the stream. -/
def readIPv6 : List Nat → Option (List Nat × List Nat) := readFull 16

/-- `Server.readDomain`: read the one-byte length, then exactly that many
domain bytes. -/
def readDomain (input : List Nat) : Option (List Nat × List Nat) :=
  match readFull 1 input with
  | none => none
  | some (lenBuf, rest) => readFull (lenBuf.getD 0 0) rest

/-- The address-type dispatch of `Server.handleRequest`: route to the reader
selected by the ATYP tag; any other tag is unsupported. -/
def readDestAddr (atyp : Nat) (input : List Nat) : Option (DestAddr × List Nat) :=
  if atyp = 1 then (readIPv4 input).map (fun p => (.ipv4 p.1, p.2))
  else if atyp = 3 then (readDomain input).map (fun p => (.domain p.1, p.2))
  else if atyp = 4 then (readIPv6 input).map (fun p => (.ipv6 p.1, p.2))
  else none

/-- The port read of `Server.handleRequest`
(`binary.Read(conn, binary.BigEndian, &port)`): exactly 2 bytes. -/
def readPort (input : List Nat) : Option (Nat × List Nat) :=
  match readFull 2 input with
  | none => none
  | some (pb, rest) => some (uint16BE pb, rest)

/-- The destination-decode sequence of `Server.handleRequest` starting at
the ATYP byte: address per type, then the port (success path). -/
def decodeRequestDest (input : List Nat) : Option (DestAddr × Nat × List Nat) :=
  match input with
  | [] => none
  | atyp :: rest =>
    match readDestAddr atyp rest with
    | none => none
    | some (dst, rest1) =>
      match readPort rest1 with
      | none => none
      | some (port, rest2) => some (dst, port, rest2)

/-- Claim C4: for every valid destination address value (IPv4 of 4 bytes,
domain of at most 255 bytes, IPv6 of 16 bytes, each with a 16-bit port),
decoding the wire encoding yields the value back, both for the UDP datagram
header decoder of `handleUDP` (for any reserved/FRAG bytes and any trailing
payload, consuming exactly `4 + wireSize` bytes as determined by the
address-type tag and its fixed or length-prefixed size, never by the buffer
length alone) and for the stream decoder of `handleRequest` (leaving any
trailing bytes unconsumed). -/
theorem c4_destaddr_roundtrip (x : DestAddr) (p r0 r1 frag : Nat)
    (data rest : List Nat) (hx : x.wf) (hp : p < 65536) :
    decodeUDPHeader ([r0, r1, frag] ++ (encodeDest x p ++ data))
      = some (x, p, 4 + x.wireSize) ∧
    decodeRequestDest (encodeDest x p ++ rest) = some (x, p, rest) := by
  have hpp : p / 256 * 256 + p % 256 = p := by omega
  cases x with
  | ipv4 a =>
    simp only [DestAddr.wf] at hx
    constructor
    · have hshape : [r0, r1, frag] ++ (encodeDest (.ipv4 a) p ++ data)
          = r0 :: r1 :: frag :: 1 :: (a ++ (p / 256 :: p % 256 :: data)) := by
        simp [encodeDest]
      have htake : (a ++ (p / 256 :: p % 256 :: data)).take 4 = a := List.take_left' hx
      have hdrop : (a ++ (p / 256 :: p % 256 :: data)).drop 4 = p / 256 :: p % 256 :: data :=
        List.drop_left' hx
      have hdrop8 : (r0 :: r1 :: frag :: 1 :: (a ++ (p / 256 :: p % 256 :: data))).drop (4 + 4)
          = p / 256 :: p % 256 :: data := by
        simp [hdrop]
      rw [hshape]
      unfold decodeUDPHeader
      simp only [hdrop8]
      simp [List.length_append, hx, htake, hdrop, uint16BE, hpp, DestAddr.wireSize]
      omega
    · have hr4 : readFull 4 (a ++ (p / 256 :: p % 256 :: rest))
          = some (a, p / 256 :: p % 256 :: rest) := by
        rw [← hx]; exact readFull_exact a _
      have hr2 : readFull 2 (p / 256 :: p % 256 :: rest) = some ([p / 256, p % 256], rest) :=
        readFull_exact [p / 256, p % 256] rest
      have hshape : encodeDest (.ipv4 a) p ++ rest
          = 1 :: (a ++ (p / 256 :: p % 256 :: rest)) := by
        simp [encodeDest]
      rw [hshape]
      simp [decodeRequestDest, readDestAddr, readIPv4, readPort, hr4, hr2, uint16BE, hpp]
  | domain d =>
    simp only [DestAddr.wf] at hx
    constructor
    · have hshape : [r0, r1, frag] ++ (encodeDest (.domain d) p ++ data)
          = r0 :: r1 :: frag :: 3 :: d.length :: (d ++ (p / 256 :: p % 256 :: data)) := by
        simp [encodeDest]
      have hg3 : (r0 :: r1 :: frag :: 3 :: d.length ::
          (d ++ (p / 256 :: p % 256 :: data))).getD 3 0 = 3 := by simp
      have hg4 : (r0 :: r1 :: frag :: 3 :: d.length ::
          (d ++ (p / 256 :: p % 256 :: data))).getD 4 0 = d.length := by simp
      have hlen : (r0 :: r1 :: frag :: 3 :: d.length ::
          (d ++ (p / 256 :: p % 256 :: data))).length = 7 + d.length + data.length := by
        simp only [List.length_cons, List.length_append]
        omega
      have hdropL : (r0 :: r1 :: frag :: 3 :: d.length ::
            (d ++ (p / 256 :: p % 256 :: data))).drop (4 + 1 + d.length)
          = p / 256 :: p % 256 :: data := by
        rw [show 4 + 1 + d.length = d.length + 5 from by omega, ← List.drop_drop]
        simp [List.drop_left]
      have haddr : ((r0 :: r1 :: frag :: 3 :: d.length ::
            (d ++ (p / 256 :: p % 256 :: data))).drop (4 + 1)).take d.length = d := by
        simp [List.take_left]
      have hport : uint16BE (((r0 :: r1 :: frag :: 3 :: d.length ::
            (d ++ (p / 256 :: p % 256 :: data))).drop (4 + 1 + d.length)).take 2) = p := by
        rw [hdropL]
        simp [uint16BE]
        omega
      rw [hshape]
      unfold decodeUDPHeader
      simp only [hg3, hg4, hlen]
      rw [if_neg (by omega : ¬ (7 + d.length + data.length < 4))]
      rw [if_neg (by omega : ¬ ((3 : Nat) = 1))]
      rw [if_pos trivial]
      rw [if_neg (by omega : ¬ (7 + d.length + data.length < 4 + 1))]
      rw [if_neg (by omega : ¬ (7 + d.length + data.length < 4 + 1 + d.length + 2))]
      rw [haddr, hport]
      simp [DestAddr.wireSize]
    · have hr1 : readFull d.length (d ++ (p / 256 :: p % 256 :: rest))
          = some (d, p / 256 :: p % 256 :: rest) := readFull_exact d _
      have hr2 : readFull 2 (p / 256 :: p % 256 :: rest) = some ([p / 256, p % 256], rest) :=
        readFull_exact [p / 256, p % 256] rest
      have hshape : encodeDest (.domain d) p ++ rest
          = 3 :: d.length :: (d ++ (p / 256 :: p % 256 :: rest)) := by
        simp [encodeDest]
      have hd1 : readFull 1 (d.length :: (d ++ (p / 256 :: p % 256 :: rest)))
          = some ([d.length], d ++ (p / 256 :: p % 256 :: rest)) :=
        readFull_exact [d.length] _
      rw [hshape]
      simp [decodeRequestDest, readDestAddr, readDomain, readPort, hd1, hr1, hr2, uint16BE, hpp]
  | ipv6 a =>
    simp only [DestAddr.wf] at hx
    constructor
    · have hshape : [r0, r1, frag] ++ (encodeDest (.ipv6 a) p ++ data)
          = r0 :: r1 :: frag :: 4 :: (a ++ (p / 256 :: p % 256 :: data)) := by
        simp [encodeDest]
      have htake : (a ++ (p / 256 :: p % 256 :: data)).take 16 = a := List.take_left' hx
      have hdrop : (a ++ (p / 256 :: p % 256 :: data)).drop 16 = p / 256 :: p % 256 :: data :=
        List.drop_left' hx
      have hdrop20 : (r0 :: r1 :: frag :: 4 :: (a ++ (p / 256 :: p % 256 :: data))).drop (4 + 16)
          = p / 256 :: p % 256 :: data := by
        simp [show (4 : Nat) + 16 = 16 + 4 from rfl, ← List.drop_drop, hdrop]
      rw [hshape]
      unfold decodeUDPHeader
      simp only [hdrop20]
      simp [List.length_append, hx, htake, hdrop, uint16BE, hpp, DestAddr.wireSize]
      omega
    · have hr16 : readFull 16 (a ++ (p / 256 :: p % 256 :: rest))
          = some (a, p / 256 :: p % 256 :: rest) := by
        rw [← hx]; exact readFull_exact a _
      have hr2 : readFull 2 (p / 256 :: p % 256 :: rest) = some ([p / 256, p % 256], rest) :=
        readFull_exact [p / 256, p % 256] rest
      have hshape : encodeDest (.ipv6 a) p ++ rest
          = 4 :: (a ++ (p / 256 :: p % 256 :: rest)) := by
        simp [encodeDest]
      rw [hshape]
      simp [decodeRequestDest, readDestAddr, readIPv6, readPort, hr16, hr2, uint16BE, hpp]

/-- Concrete instantiation of the round-trip theorem at the domain
`[97, 98]` with port 258: both decoders recover the value, the UDP decoder
consuming exactly 9 header bytes. -/
theorem c4_destaddr_roundtrip_witness :
    decodeUDPHeader [0, 0, 0, 3, 2, 97, 98, 1, 2, 55] = some (.domain [97, 98], 258, 9) ∧
    decodeRequestDest [3, 2, 97, 98, 1, 2, 66] = some (.domain [97, 98], 258, [66]) := by
  have h := c4_destaddr_roundtrip (.domain [97, 98]) 258 0 0 0 [55] [66]
    (by norm_num [DestAddr.wf]) (by norm_num)
  exact ⟨h.1, h.2⟩

/-! The UDP session manager: session table, datagram step, idle sweep. -/

/-- A `UDPSession`: the client's observed source address, the remote peer of
the session's outbound socket (fixed when `net.DialUDP` connects it), and
the last-activity timestamp. Time is an abstract `Nat` in the same units as
the configured timeout. The outbound socket is represented by its remote
peer (a resolved target address string). -/
structure UDPSession where
  clientAddr : String
  target : String
  lastActive : Nat
deriving Repr, DecidableEq

/-- The session map `map[string]*UDPSession`, keyed by
`clientAddr.String()`, as an association list. -/
abbrev SessionTable := List (String × UDPSession)

/-- Map lookup `h.sessions[sessionKey]`. -/
def findSession : SessionTable → String → Option UDPSession
  | [], _ => none
  | p :: rest, key => if p.1 = key then some p.2 else findSession rest key

/-- The in-place mutation `session.lastActive = time.Now()` of the entry
under `key`, seen through the table. -/
def touchSession (now : Nat) : SessionTable → String → SessionTable
  | [], _ => []
  | p :: rest, key =>
    (if p.1 = key then (p.1, ⟨p.2.clientAddr, p.2.target, now⟩) else p) ::
      touchSession now rest key

/-- One iteration of the `UDPHandler.handleUDP` receive loop on a datagram
`buffer` arriving from `clientAddr`: decode the SOCKS5 UDP header (a failed
decode means `continue`, dropping the datagram); look up the session by the
client's source address; if absent, resolve and dial the decoded
destination (the `dial` oracle models `net.ResolveUDPAddr` composed with
`net.DialUDP`, returning the connected socket's remote peer, or `none` when
either step fails, in which case the loop `continue`s with the table
unchanged) and insert the new session; touch `lastActive`; forward the
bytes after the header to the session's outbound socket. Returns the new
table and the forwarded (peer, payload), or `none` when dropped. -/
def handleUDPStep (dial : DestAddr → Nat → Option String) (now : Nat)
    (sessions : SessionTable) (clientAddr : String) (buffer : List Nat) :
    SessionTable × Option (String × List Nat) :=
  match decodeUDPHeader buffer with
  | none => (sessions, none)
  | some (dst, port, headerSize) =>
    match findSession sessions clientAddr with
    | some session =>
      (touchSession now sessions clientAddr, some (session.target, buffer.drop headerSize))
    | none =>
      match dial dst port with
      | none => (sessions, none)
      | some target =>
        (touchSession now ((clientAddr, ⟨clientAddr, target, now⟩) :: sessions) clientAddr,
         some (target, buffer.drop headerSize))

/-- One iteration of `UDPHandler.handleTargetData` on a datagram `payload`
read from the session's target: the frame written back to the client and
the table with the session's `lastActive` touched. -/
def handleTargetStep (now : Nat) (sessions : SessionTable) (key : String)
    (payload : List Nat) : List Nat × SessionTable :=
  (handleTargetFrame payload, touchSession now sessions key)

/-- One pass of `UDPHandler.cleanSessions` (the body run on each tick of the
ticker, whose period is the configured timeout): every session with
`now - lastActive > timeout` is closed and deleted from the table. Returns
the surviving table and the list of evicted (closed) sessions. -/
def cleanSessions (now timeout : Nat) (sessions : SessionTable) :
    SessionTable × SessionTable :=
  sessions.foldr
    (fun p acc =>
      if now - p.2.lastActive > timeout then (acc.1, p :: acc.2) else (p :: acc.1, acc.2))
    ([], [])

/-- Touching a session changes no keys. -/
theorem touchSession_keys (now : Nat) (sessions : SessionTable) (key : String) :
    (touchSession now sessions key).map Prod.fst = sessions.map Prod.fst := by
  induction sessions with
  | nil => rfl
  | cons p rest ih =>
    simp only [touchSession, List.map_cons, ih]
    congr 1
    split <;> rfl

/-- Looking up a touched session yields the stored session with its
`lastActive` replaced. -/
theorem findSession_touchSession (now : Nat) (sessions : SessionTable) (key : String) :
    findSession (touchSession now sessions key) key
      = (findSession sessions key).map (fun s => ⟨s.clientAddr, s.target, now⟩) := by
  induction sessions with
  | nil => rfl
  | cons p rest ih =>
    by_cases h : p.1 = key
    · simp [touchSession, findSession, h]
    · simp [touchSession, findSession, h, ih]

/-- A key that fails to look up is not among the table's keys. -/
theorem findSession_none_keys (sessions : SessionTable) (key : String)
    (h : findSession sessions key = none) : key ∉ sessions.map Prod.fst := by
  induction sessions with
  | nil => simp
  | cons p rest ih =>
    simp only [findSession] at h
    by_cases hp : p.1 = key
    · rw [if_pos hp] at h
      exact absurd h (by simp)
    · rw [if_neg hp] at h
      intro hmem
      rcases List.mem_cons.mp hmem with he | hm
      · exact hp (by simp [he])
      · exact ih h hm

/-- The sweep keeps exactly the sessions within the timeout and closes
exactly those beyond it. -/
theorem cleanSessions_spec (now timeout : Nat) (sessions : SessionTable) :
    cleanSessions now timeout sessions
      = (sessions.filter (fun p => decide (¬ now - p.2.lastActive > timeout)),
         sessions.filter (fun p => decide (now - p.2.lastActive > timeout))) := by
  induction sessions with
  | nil => rfl
  | cons p rest ih =>
    simp only [cleanSessions, List.foldr_cons] at ih ⊢
    rw [ih]
    by_cases h : now - p.2.lastActive > timeout
    · rw [if_pos h]
      simp only [List.filter_cons]
      rw [show decide (¬ now - p.2.lastActive > timeout) = false from by simp [h]]
      rw [show decide (now - p.2.lastActive > timeout) = true from by simp [h]]
      simp
    · rw [if_neg h]
      simp only [List.filter_cons]
      rw [show decide (¬ now - p.2.lastActive > timeout) = true from by simp [h]]
      rw [show decide (now - p.2.lastActive > timeout) = false from by simp [h]]
      simp

/-- Claim C5: the session table holds at most one session per client source
address (distinctness of the keys is preserved by every receive-loop step),
and for a client address that already has a session, the datagram is
forwarded to the session's outbound socket peer fixed at creation — whatever
destination the datagram decodes to, and independently of the dial oracle —
while the table keeps the session's original target and only refreshes its
`lastActive`. -/
theorem c5_one_session_fixed_peer
    (dial dial' : DestAddr → Nat → Option String) (now : Nat)
    (sessions : SessionTable) (clientAddr : String) (buffer : List Nat)
    (s : UDPSession) (dst : DestAddr) (port headerSize : Nat) :
    ((sessions.map Prod.fst).Nodup →
      (((handleUDPStep dial now sessions clientAddr buffer).1).map Prod.fst).Nodup) ∧
    (findSession sessions clientAddr = some s →
      decodeUDPHeader buffer = some (dst, port, headerSize) →
      (handleUDPStep dial now sessions clientAddr buffer).2
          = some (s.target, buffer.drop headerSize) ∧
      findSession ((handleUDPStep dial now sessions clientAddr buffer).1) clientAddr
          = some ⟨s.clientAddr, s.target, now⟩ ∧
      handleUDPStep dial now sessions clientAddr buffer
          = handleUDPStep dial' now sessions clientAddr buffer) := by
  constructor
  · intro hnd
    cases hdec : decodeUDPHeader buffer with
    | none =>
      have hstep : handleUDPStep dial now sessions clientAddr buffer = (sessions, none) := by
        simp only [handleUDPStep, hdec]
      rw [hstep]
      exact hnd
    | some r =>
      obtain ⟨d, pr, hs⟩ := r
      cases hfind : findSession sessions clientAddr with
      | some t =>
        have hstep : handleUDPStep dial now sessions clientAddr buffer
            = (touchSession now sessions clientAddr,
               some (t.target, buffer.drop hs)) := by
          simp only [handleUDPStep, hdec, hfind]
        rw [hstep]
        simpa [touchSession_keys] using hnd
      | none =>
        cases hdial : dial d pr with
        | none =>
          have hstep : handleUDPStep dial now sessions clientAddr buffer
              = (sessions, none) := by
            simp only [handleUDPStep, hdec, hfind, hdial]
          rw [hstep]
          exact hnd
        | some tgt =>
          have hstep : handleUDPStep dial now sessions clientAddr buffer
              = (touchSession now
                   ((clientAddr, ⟨clientAddr, tgt, now⟩) :: sessions) clientAddr,
                 some (tgt, buffer.drop hs)) := by
            simp only [handleUDPStep, hdec, hfind, hdial]
          rw [hstep]
          simp only [touchSession_keys, List.map_cons]
          exact List.nodup_cons.mpr ⟨findSession_none_keys sessions clientAddr hfind, hnd⟩
  · intro hfind hdec
    have hstep : handleUDPStep dial now sessions clientAddr buffer
        = (touchSession now sessions clientAddr,
           some (s.target, buffer.drop headerSize)) := by
      unfold handleUDPStep
      rw [hdec, hfind]
    have hstep' : handleUDPStep dial' now sessions clientAddr buffer
        = (touchSession now sessions clientAddr,
           some (s.target, buffer.drop headerSize)) := by
      unfold handleUDPStep
      rw [hdec, hfind]
    refine ⟨by rw [hstep], ?_, by rw [hstep, hstep']⟩
    rw [hstep]
    show findSession (touchSession now sessions clientAddr) clientAddr = _
    rw [findSession_touchSession, hfind]
    rfl

/-- Concrete instantiation of the session-table theorem: a table with one
session for client `c` targeting `t`, receiving a datagram from `c` that
decodes to the different destination `9.9.9.9:80`, still forwards to `t`,
keeps distinct keys, refreshes `lastActive`, and ignores the dial oracle. -/
theorem c5_one_session_fixed_peer_witness :
    (((handleUDPStep (fun _ _ => none) 7 [("c", ⟨"c", "t", 0⟩)] "c"
        [0, 0, 0, 1, 9, 9, 9, 9, 0, 80, 99]).1).map Prod.fst).Nodup ∧
    (handleUDPStep (fun _ _ => none) 7 [("c", ⟨"c", "t", 0⟩)] "c"
        [0, 0, 0, 1, 9, 9, 9, 9, 0, 80, 99]).2 = some ("t", [99]) ∧
    findSession ((handleUDPStep (fun _ _ => none) 7 [("c", ⟨"c", "t", 0⟩)] "c"
        [0, 0, 0, 1, 9, 9, 9, 9, 0, 80, 99]).1) "c" = some ⟨"c", "t", 7⟩ ∧
    handleUDPStep (fun _ _ => none) 7 [("c", ⟨"c", "t", 0⟩)] "c"
        [0, 0, 0, 1, 9, 9, 9, 9, 0, 80, 99]
      = handleUDPStep (fun _ _ => some "u") 7 [("c", ⟨"c", "t", 0⟩)] "c"
        [0, 0, 0, 1, 9, 9, 9, 9, 0, 80, 99] := by
  have h := c5_one_session_fixed_peer (fun _ _ => none) (fun _ _ => some "u") 7
    [("c", ⟨"c", "t", 0⟩)] "c" [0, 0, 0, 1, 9, 9, 9, 9, 0, 80, 99]
    ⟨"c", "t", 0⟩ (.ipv4 [9, 9, 9, 9]) 80 10
  obtain ⟨h1, h2⟩ := h
  have h2r := h2 (by decide) (by decide)
  exact ⟨h1 (by decide), h2r.1, h2r.2.1, h2r.2.2⟩

/-- Claim C6: one sweep pass removes and closes exactly the sessions whose
last activity is older than the timeout (`now - lastActive > timeout`) and
keeps every other session; the last-activity timestamp is refreshed by
every client-facing datagram step and every target-facing datagram step of
a session, so a session whose last activity is within the timeout at sweep
time is never evicted. (The sweep runs on a ticker whose fixed period
equals the configured timeout, outside this state model.) -/
theorem c6_idle_sweep_exact (now timeout : Nat) (sessions : SessionTable)
    (key : String) (s : UDPSession) (payload buffer : List Nat)
    (dial : DestAddr → Nat → Option String) :
    ((cleanSessions now timeout sessions).1
        = sessions.filter (fun p => decide (¬ now - p.2.lastActive > timeout))) ∧
    ((cleanSessions now timeout sessions).2
        = sessions.filter (fun p => decide (now - p.2.lastActive > timeout))) ∧
    ((key, s) ∈ sessions → now - s.lastActive ≤ timeout →
      (key, s) ∈ (cleanSessions now timeout sessions).1 ∧
      (key, s) ∉ (cleanSessions now timeout sessions).2) ∧
    (findSession ((handleTargetStep now sessions key payload).2) key
        = (findSession sessions key).map (fun t => ⟨t.clientAddr, t.target, now⟩)) ∧
    (findSession sessions key = some s →
      decodeUDPHeader buffer = some (.ipv4 (buffer.drop 4 |>.take 4),
        uint16BE ((buffer.drop 8).take 2), 10) →
      findSession ((handleUDPStep dial now sessions key buffer).1) key
        = some ⟨s.clientAddr, s.target, now⟩) := by
  rw [cleanSessions_spec]
  refine ⟨rfl, rfl, fun hmem hle => ⟨?_, ?_⟩, ?_, fun hfind hdec => ?_⟩
  · rw [List.mem_filter]
    exact ⟨hmem, by simpa using Nat.not_lt.mpr hle⟩
  · intro hmemc
    rw [List.mem_filter] at hmemc
    exact absurd (of_decide_eq_true hmemc.2) (Nat.not_lt.mpr hle)
  · show findSession (touchSession now sessions key) key = _
    rw [findSession_touchSession]
  · have hstep : (handleUDPStep dial now sessions key buffer).1
        = touchSession now sessions key := by
      unfold handleUDPStep
      rw [hdec, hfind]
    rw [hstep, findSession_touchSession, hfind]
    rfl

/-- Concrete instantiation of the idle-sweep theorem: with timeout 5 at time
10, the session last active at 4 (idle for 6 > 5) is closed and the one
last active at 6 (idle for 4 ≤ 5) is kept; steps refresh `lastActive`. -/
theorem c6_idle_sweep_exact_witness :
    (cleanSessions 10 5 [("a", ⟨"a", "t", 4⟩), ("b", ⟨"b", "u", 6⟩)]).1
        = [("b", ⟨"b", "u", 6⟩)] ∧
    (cleanSessions 10 5 [("a", ⟨"a", "t", 4⟩), ("b", ⟨"b", "u", 6⟩)]).2
        = [("a", ⟨"a", "t", 4⟩)] ∧
    ("b", (⟨"b", "u", 6⟩ : UDPSession))
        ∈ (cleanSessions 10 5 [("a", ⟨"a", "t", 4⟩), ("b", ⟨"b", "u", 6⟩)]).1 ∧
    ("b", (⟨"b", "u", 6⟩ : UDPSession))
        ∉ (cleanSessions 10 5 [("a", ⟨"a", "t", 4⟩), ("b", ⟨"b", "u", 6⟩)]).2 ∧
    findSession ((handleTargetStep 10 [("b", ⟨"b", "u", 6⟩)] "b" [42]).2) "b"
        = some ⟨"b", "u", 10⟩ ∧
    findSession ((handleUDPStep (fun _ _ => none) 10 [("b", ⟨"b", "u", 6⟩)] "b"
        [0, 0, 0, 1, 9, 9, 9, 9, 0, 80, 99]).1) "b" = some ⟨"b", "u", 10⟩ := by
  have h := c6_idle_sweep_exact 10 5 [("a", ⟨"a", "t", 4⟩), ("b", ⟨"b", "u", 6⟩)]
    "b" ⟨"b", "u", 6⟩ [42] [0, 0, 0, 1, 9, 9, 9, 9, 0, 80, 99] (fun _ _ => none)
  have h3 := h.2.2.1 (by decide) (by decide)
  have h4 := c6_idle_sweep_exact 10 5 [("b", ⟨"b", "u", 6⟩)]
    "b" ⟨"b", "u", 6⟩ [42] [0, 0, 0, 1, 9, 9, 9, 9, 0, 80, 99] (fun _ _ => none)
  refine ⟨?_, ?_, h3.1, h3.2, ?_, h4.2.2.2.2 (by decide) (by decide)⟩
  · rw [h.1]; decide
  · rw [h.2.1]; decide
  · rw [h4.2.2.2.1]; decide

/-- Claim C7: a client-facing UDP datagram with ATYP = domain (`0x03`) whose
declared domain length (plus the 2-byte port) extends past the received
datagram is dropped: the decode fails closed on the explicit bounds check,
nothing is forwarded, no session is created, and the step leaves the table
untouched (each loop iteration handles its datagram independently, so the
receive loop continues with the next one). -/
theorem c7_domain_overrun_dropped (r0 r1 frag domainLen : Nat) (tail : List Nat)
    (dial : DestAddr → Nat → Option String) (now : Nat)
    (sessions : SessionTable) (clientAddr : String)
    (hshort : tail.length < domainLen + 2) :
    decodeUDPHeader ([r0, r1, frag, 3, domainLen] ++ tail) = none ∧
    handleUDPStep dial now sessions clientAddr ([r0, r1, frag, 3, domainLen] ++ tail)
      = (sessions, none) := by
  have hdec : decodeUDPHeader ([r0, r1, frag, 3, domainLen] ++ tail) = none := by
    have hlen : ([r0, r1, frag, 3, domainLen] ++ tail).length = 5 + tail.length := by
      simp only [List.length_append, List.length_cons, List.length_nil]
    have hg3 : ([r0, r1, frag, 3, domainLen] ++ tail).getD 3 0 = 3 := by simp
    have hg4 : ([r0, r1, frag, 3, domainLen] ++ tail).getD 4 0 = domainLen := by simp
    unfold decodeUDPHeader
    simp only [hlen, hg3, hg4]
    rw [if_neg (by omega : ¬ (5 + tail.length < 4))]
    rw [if_neg (by omega : ¬ ((3 : Nat) = 1))]
    rw [if_pos trivial]
    rw [if_neg (by omega : ¬ (5 + tail.length < 4 + 1))]
    rw [if_pos (by omega : 5 + tail.length < 4 + 1 + domainLen + 2)]
  refine ⟨hdec, ?_⟩
  unfold handleUDPStep
  rw [hdec]

/-- Concrete instantiation of the overrun theorem: a datagram declaring a
5-byte domain but carrying no further bytes is dropped with the table
unchanged. -/
theorem c7_domain_overrun_dropped_witness :
    decodeUDPHeader [0, 0, 0, 3, 5] = none ∧
    handleUDPStep (fun _ _ => some "u") 3 [("c", ⟨"c", "t", 0⟩)] "c" [0, 0, 0, 3, 5]
      = ([("c", ⟨"c", "t", 0⟩)], none) := by
  exact c7_domain_overrun_dropped 0 0 0 5 [] (fun _ _ => some "u") 3
    [("c", ⟨"c", "t", 0⟩)] "c" (by decide)

/-- Claim C10: a datagram from a previously-unseen client address whose
destination fails to resolve or dial leaves the session table unchanged and
forwards nothing (the loop `continue`s with the next datagram after
releasing the lock). -/
theorem c10_dial_failure_no_session (dial : DestAddr → Nat → Option String)
    (now : Nat) (sessions : SessionTable) (clientAddr : String) (buffer : List Nat)
    (dst : DestAddr) (port headerSize : Nat)
    (hnew : findSession sessions clientAddr = none)
    (hdec : decodeUDPHeader buffer = some (dst, port, headerSize))
    (hdial : dial dst port = none) :
    handleUDPStep dial now sessions clientAddr buffer = (sessions, none) := by
  simp only [handleUDPStep, hdec, hnew, hdial]

/-- Concrete instantiation of the dial-failure theorem: first datagram from
client `c` with an always-failing dial oracle adds no session and forwards
nothing. -/
theorem c10_dial_failure_no_session_witness :
    handleUDPStep (fun _ _ => none) 3 [] "c" [0, 0, 0, 1, 9, 9, 9, 9, 0, 80, 99]
      = ([], none) := by
  exact c10_dial_failure_no_session (fun _ _ => none) 3 [] "c"
    [0, 0, 0, 1, 9, 9, 9, 9, 0, 80, 99] (.ipv4 [9, 9, 9, 9]) 80 10
    (by decide) (by decide) (by decide)

/-! The reply codec, the CONNECT path, and the request parse phase. -/

/-- A `net.TCPAddr`: IP bytes (4-byte IPv4 or 16-byte IPv6) and port. -/
structure TCPAddr where
  ip : List Nat
  port : Nat
deriving Repr, DecidableEq

/-- The IPv4-in-IPv6 prefix `::ffff:` used by `net.IP`. -/
def v4InV6Prefix : List Nat := [0, 0, 0, 0, 0, 0, 0, 0, 0, 0, 255, 255]

/-- `net.IP.To4`: the 4-byte form when the IP is IPv4 (4-byte or
IPv4-mapped 16-byte), otherwise nil. -/
def ipTo4 (ip : List Nat) : Option (List Nat) :=
  if ip.length = 4 then some ip
  else if ip.length = 16 ∧ ip.take 12 = v4InV6Prefix then some (ip.drop 12)
  else none

/-- `net.IP.To16`: widen a 4-byte IP to the mapped 16-byte form. -/
def ipTo16 (ip : List Nat) : List Nat :=
  if ip.length = 4 then v4InV6Prefix ++ ip else ip

/-- `Server.sendReply`: the bytes written to the client — version, reply
code, reserved 0, then the bound address: with no address, ATYP IPv4 and
six zero bytes (`0.0.0.0:0`); with an address, the IPv4 form when `To4` is
non-nil, else the IPv6 form, followed by the 2-byte big-endian port
(`uint16(addr.Port)` truncates to 16 bits). -/
def sendReply (rep : Nat) (addr : Option TCPAddr) : List Nat :=
  match addr with
  | none => [5, rep, 0, 1] ++ List.replicate 6 0
  | some a =>
    match ipTo4 a.ip with
    | some ip4 => [5, rep, 0, 1] ++ ip4 ++ [a.port % 65536 / 256, a.port % 256]
    | none => [5, rep, 0, 4] ++ ipTo16 a.ip ++ [a.port % 65536 / 256, a.port % 256]

/-- Outcome of `Server.handleConnect`: either the connection is terminated
after the written reply with no relay started, or the reply was written and
the two relay copy loops are started. -/
inductive ConnectResult where
  | terminated (written : List Nat)
  | relayed (written : List Nat)
deriving Repr, DecidableEq

/-- `Server.handleConnect`: `net.Dial("tcp", target)` is modeled by its
outcome — `none` on error, `some local` with the locally bound address of
the new outbound socket on success. On failure the server sends reply
`RepConnectionRefused` (0x05) and returns the error (connection closed, no
relay); on success it sends `RepSuccess` (0x00) carrying the local bound
address, then starts the relay. -/
def handleConnect (dialTCP : Option TCPAddr) : ConnectResult :=
  match dialTCP with
  | none => .terminated (sendReply 5 none)
  | some localAddr => .relayed (sendReply 0 (some localAddr))

/-- The port read and success result shared by the address branches of
`Server.handleRequest`: a failed port read sends `RepServerFailure` (0x01)
and aborts; otherwise the parsed request is produced with no write. -/
def requestPort (dst : DestAddr) (command : Nat) (rest1 : List Nat) :
    List Nat × Option (Nat × DestAddr × Nat × List Nat) :=
  match readPort rest1 with
  | none => (sendReply 1 none, none)
  | some (port, rest2) => ([], some (command, dst, port, rest2))

/-- The parse phase of `Server.handleRequest` (everything before the
command dispatch): read the 4-byte header, reject version ≠ 5 with no
write, dispatch on ATYP — an unknown ATYP sends
`RepAddressTypeNotSupported` (0x08) and aborts, a failed address read sends
`RepServerFailure` (0x01) and aborts — then read the port via
`requestPort`. Returns the bytes written and the parsed
(command, destination, port, rest) on success. -/
def parseRequest (input : List Nat) :
    List Nat × Option (Nat × DestAddr × Nat × List Nat) :=
  match readFull 4 input with
  | none => ([], none)
  | some (header, rest) =>
    if header.getD 0 0 ≠ 5 then ([], none)
    else
      if header.getD 3 0 = 1 then
        match readIPv4 rest with
        | none => (sendReply 1 none, none)
        | some (a, rest1) => requestPort (.ipv4 a) (header.getD 1 0) rest1
      else if header.getD 3 0 = 3 then
        match readDomain rest with
        | none => (sendReply 1 none, none)
        | some (d, rest1) => requestPort (.domain d) (header.getD 1 0) rest1
      else if header.getD 3 0 = 4 then
        match readIPv6 rest with
        | none => (sendReply 1 none, none)
        | some (a, rest1) => requestPort (.ipv6 a) (header.getD 1 0) rest1
      else (sendReply 8 none, none)

/-- Claim C8: with a validly decoded destination, a failed TCP dial makes
the server send reply code 0x05 (ConnectionRefused) with the zero
placeholder address and terminate without starting a relay; a successful
dial makes it send reply code 0x00 (Success) carrying the outbound
socket's locally bound address (here the IPv4 case spelled out, and for any
local address the reply starts `[0x05, 0x00]`) before the relay starts. -/
theorem c8_connect_replies (localAddr local2 : TCPAddr)
    (h4 : localAddr.ip.length = 4) (hp : localAddr.port < 65536) :
    handleConnect none = .terminated [5, 5, 0, 1, 0, 0, 0, 0, 0, 0] ∧
    handleConnect (some localAddr)
      = .relayed ([5, 0, 0, 1] ++ localAddr.ip
          ++ [localAddr.port / 256, localAddr.port % 256]) ∧
    (∃ w, handleConnect (some local2) = .relayed w ∧ w.take 2 = [5, 0]) := by
  refine ⟨by decide, ?_, ?_⟩
  · have hipTo4 : ipTo4 localAddr.ip = some localAddr.ip := by
      unfold ipTo4
      rw [if_pos h4]
    have hmod : localAddr.port % 65536 = localAddr.port := Nat.mod_eq_of_lt hp
    simp only [handleConnect, sendReply, hipTo4, hmod]
  · refine ⟨sendReply 0 (some local2), rfl, ?_⟩
    unfold sendReply
    cases h : ipTo4 local2.ip <;> simp [h]

/-- Concrete instantiation of the CONNECT theorem: a failed dial yields the
refused reply; a dial bound locally to `10.0.0.1:8080` yields the success
reply carrying that address; a 16-byte local address still yields a reply
starting `[0x05, 0x00]`. -/
theorem c8_connect_replies_witness :
    handleConnect none = .terminated [5, 5, 0, 1, 0, 0, 0, 0, 0, 0] ∧
    handleConnect (some ⟨[10, 0, 0, 1], 8080⟩)
      = .relayed [5, 0, 0, 1, 10, 0, 0, 1, 31, 144] ∧
    (∃ w, handleConnect (some ⟨List.replicate 16 1, 443⟩) = .relayed w ∧
      w.take 2 = [5, 0]) := by
  have h := c8_connect_replies ⟨[10, 0, 0, 1], 8080⟩ ⟨List.replicate 16 1, 443⟩
    (by decide) (by decide)
  exact ⟨h.1, by simpa using h.2.1, h.2.2⟩

/-- A failed username/password sub-negotiation writes nothing (when the
frame was malformed) or exactly the protocol failure status `[0x01, 0x01]`
(when the credentials were wrong). -/
theorem handleUserPassAuth_err_writes (credentials : Credentials) (input : List Nat) :
    (handleUserPassAuth credentials input).ok = false →
    (handleUserPassAuth credentials input).written = [] ∨
    (handleUserPassAuth credentials input).written = [1, 1] := by
  unfold handleUserPassAuth
  repeat' split
  all_goals simp

/-- A failed handshake writes nothing, the method-selection rejection
`[0x05, 0xFF]`, or the method selection followed by the auth failure
status. -/
theorem handleHandshake_err_writes (s : Server) (input : List Nat) :
    (handleHandshake s input).ok = false →
    (handleHandshake s input).written
      ∈ [([] : List Nat), [5, 255], [5, 2], [5, 2, 1, 1]] := by
  unfold handleHandshake
  split
  · simp
  · split
    · simp
    · split
      · simp
      · rename_i methods rest1 heq
        by_cases h255 : selectMethod s.authEnabled methods = 255
        · simp [h255]
        · by_cases h2 : selectMethod s.authEnabled methods = 2
          · intro h
            simp only [h255, h2] at h ⊢
            simp at h ⊢
            rcases handleUserPassAuth_err_writes s.credentials rest1 h with h1 | h1 <;>
              simp [h1]
          · simp [h255, h2]

/-- A failed request parse writes nothing (short header or bad version),
the 10-byte ServerFailure reply (failed address or port read), or the
10-byte AddressTypeNotSupported reply (unknown ATYP). -/
theorem parseRequest_err_writes (rinput : List Nat) :
    (parseRequest rinput).2 = none →
    (parseRequest rinput).1
      ∈ [([] : List Nat), [5, 1, 0, 1, 0, 0, 0, 0, 0, 0], [5, 8, 0, 1, 0, 0, 0, 0, 0, 0]] := by
  unfold parseRequest requestPort
  repeat' split
  all_goals intro h
  all_goals simp_all [sendReply]

/-- Claim C9 (amended): on any connection, a malformed frame is fatal; in
the handshake and authentication phases the server writes nothing beyond
the protocol-mandated bytes (the `[0x05, method]` selection, with `0xFF`
rejection, and the `[0x01, status]` auth result); in the request-parse
phase, however, a short read of the address or port elicits the full
ServerFailure reply and an unknown address type the AddressTypeNotSupported
reply before the connection closes, while a short request header or a bad
version byte still closes with no reply. -/
theorem c9_malformed_reply_amended (s : Server) (input rinput : List Nat) :
    ((handleHandshake s input).ok = false →
      (handleHandshake s input).written
        ∈ [([] : List Nat), [5, 255], [5, 2], [5, 2, 1, 1]]) ∧
    ((parseRequest rinput).2 = none →
      (parseRequest rinput).1
        ∈ [([] : List Nat), [5, 1, 0, 1, 0, 0, 0, 0, 0, 0],
           [5, 8, 0, 1, 0, 0, 0, 0, 0, 0]]) :=
  ⟨handleHandshake_err_writes s input, parseRequest_err_writes rinput⟩

/-- Concrete instantiation of the amended claim: an empty stream fails the
handshake with nothing written; the truncated request `[5, 1, 0, 1, 9]`
fails the parse with the ServerFailure reply written. -/
theorem c9_malformed_reply_amended_witness :
    ((handleHandshake (NewServer []) []).written
      ∈ [([] : List Nat), [5, 255], [5, 2], [5, 2, 1, 1]]) ∧
    ((parseRequest [5, 1, 0, 1, 9]).1
      ∈ [([] : List Nat), [5, 1, 0, 1, 0, 0, 0, 0, 0, 0],
         [5, 8, 0, 1, 0, 0, 0, 0, 0, 0]]) := by
  have h := c9_malformed_reply_amended (NewServer []) [] [5, 1, 0, 1, 9]
  exact ⟨h.1 (by decide), h.2 (by decide)⟩

/-- Claim C9, as stated, is false at a concrete input: the request stream
`[5, 1, 0, 1, 9]` is a malformed frame (a short read: one address byte
instead of four), yet the server writes the crafted 10-byte ServerFailure
reply before closing — a reply that is neither empty nor one of the
protocol-mandated rejection frames (the `0xFF` method selection or the
auth failure status). -/
theorem c9_malformed_reply_counterexample :
    parseRequest [5, 1, 0, 1, 9] = ([5, 1, 0, 1, 0, 0, 0, 0, 0, 0], none) ∧
    ([5, 1, 0, 1, 0, 0, 0, 0, 0, 0] : List Nat) ≠ [] ∧
    ([5, 1, 0, 1, 0, 0, 0, 0, 0, 0] : List Nat) ≠ [5, 255] ∧
    ([5, 1, 0, 1, 0, 0, 0, 0, 0, 0] : List Nat) ≠ [1, 1] := by
  refine ⟨by decide, by decide, by decide, by decide⟩

end Socks5
